import Mathlib

/-!
Shallow embedding of the aido-cron plugin (src/lib/index.js and
src/lib/database/job.js).

The plugin keeps an in-memory map `jobs` from a job id to a live cron timer,
persists job records through an external store (objection.js `Job` model),
and exposes scheduling (`scheduleTask`, ephemeral `setCronJob`), cancellation
(`killTasks` / `cancelCronJob`) and recovery (`initPlugin`).

Modelling conventions:
* the in-memory `jobs` object is an association list `Registry` with
  JavaScript object-assignment semantics (insert overwrites, delete removes);
* the database is a `List JobRecord`; objection calls (`findById`, `patch`,
  `whereNull` + `andWhere` queries) are list operations;
* instants are abstract `Nat` timestamps; rendering to / parsing from ISO
  strings is passed in as a function parameter where the source calls moment;
* the asynchronous dispatch call (`utils.emitAction` / `utils.emitSlash`) is
  an abstract callable whose outcome is a `DispatchResult` parameter;
* a thrown / rejected JavaScript error is an explicit `Option String` field
  (`errThrown`) or an `Except` value.
-/

namespace AidoCron

/-- Job identifiers: a database id (auto-increment integer, starting at 1) or
the reserved sentinel string NO_PERSISTANCE used for ephemeral jobs
(src/lib/index.js line 7). -/
inductive JobId where
  | dbId (n : Nat)
  | noPersistance
deriving DecidableEq, Repr

/-- A persisted job record, one row of the `job` table
(src/lib/index.js extendDb, src/lib/database/job.js).
`done` is the tri-state completion flag: `none` = pending, `some true` =
succeeded, `some false` = failed.  `error` holds the failure detail. -/
structure JobRecord where
  id : Nat
  cron : String
  user : String
  slash : String
  text : Option String := none
  action : Option String := none
  channel : Option String := none
  conversationWith : Option (List String) := none
  conversationAs : Option String := none
  done : Option Bool := none
  error : Option String := none
deriving DecidableEq, Repr

/-- The time value handed to the `cron` library's CronJob constructor: either
a concrete instant (a JavaScript Date / moment) or a recurring CRON pattern
string. -/
inductive CronTime where
  | instant (t : Nat)
  | pattern (s : String)
deriving DecidableEq, Repr

/-- The cron library sets `runOnce` on a CronJob exactly when the cronTime is
a Date/moment rather than a pattern string; such a timer fires once. -/
def runOnce : CronTime → Bool
  | CronTime.instant _ => true
  | CronTime.pattern _ => false

/-- The in-memory `jobs` map (src/lib/index.js line 8), id to live timer. -/
abbrev Registry := List (JobId × CronTime)

/-- Lookup `jobs[id]`. -/
def registryFind (reg : Registry) (i : JobId) : Option CronTime :=
  (reg.find? (fun p => p.1 == i)).map (fun p => p.2)

/-- Assignment `jobs[id] = job` (overwrites any previous entry). -/
def registryInsert (reg : Registry) (i : JobId) (ct : CronTime) : Registry :=
  (i, ct) :: reg.filter (fun p => p.1 != i)

/-- Deletion `delete jobs[id]`. -/
def registryRemove (reg : Registry) (i : JobId) : Registry :=
  reg.filter (fun p => p.1 != i)

/-- Outcome of the abstract dispatch callable (`utils.emitAction` or
`utils.emitSlash`): resolves, or rejects with an error whose string form is
carried. -/
inductive DispatchResult where
  | ok
  | err (msg : String)
deriving DecidableEq, Repr

/-- Lookup of a persisted record by its integer id
(`database.Job.query().findById(id)`). -/
def findById (db : List JobRecord) (n : Nat) : Option JobRecord :=
  db.find? (fun r => r.id == n)

/-- The patch object of the success path, `.patch(\x7b done: true \x7d)`. -/
def donePatch (r : JobRecord) : JobRecord := { r with done := some true }

/-- The patch object of the failure and cancellation paths,
`.patch(\x7b done: false, error: message \x7d)`. -/
def failPatch (msg : String) (r : JobRecord) : JobRecord :=
  { r with done := some false, error := some msg }

/-- A `$query().patch(fields)` against the record(s) with the given id; for
the sentinel id no row can match (the store never holds it). -/
def patchById (db : List JobRecord) (i : JobId) (f : JobRecord → JobRecord) :
    List JobRecord :=
  match i with
  | JobId.dbId n => db.map (fun r => if r.id == n then f r else r)
  | JobId.noPersistance => db

/-- Registering a job: `setCronJob` (src/lib/index.js lines 23-57) builds the
CronJob, starts it and stores it under `jobs[id]`, returning the id.  The fire
callback itself is modelled separately by `fireJob`. -/
def setCronJob (reg : Registry) (jobId : JobId) (cronTime : CronTime) :
    Registry × JobId :=
  (registryInsert reg jobId cronTime, jobId)

/-- One execution of the fire callback built inside `setCronJob`
(src/lib/index.js lines 26-51), given the dispatch outcome:
* on success, if the timer is one-shot (`job.runOnce`) and the id is not the
  sentinel, patch the record to `done = true`;
* on a dispatch error the error is caught (the callback returns normally);
  if the id is not the sentinel, patch to `done = false` with the stringified
  error.
The callback never stops the timer and never touches the `jobs` map, so the
registry component is returned unchanged. -/
def fireJob (db : List JobRecord) (reg : Registry) (jobId : JobId)
    (ct : CronTime) (outcome : DispatchResult) : List JobRecord × Registry :=
  match outcome with
  | DispatchResult.ok =>
      if runOnce ct && jobId != JobId.noPersistance then
        (patchById db jobId donePatch, reg)
      else
        (db, reg)
  | DispatchResult.err msg =>
      if jobId != JobId.noPersistance then
        (patchById db jobId (failPatch msg), reg)
      else
        (db, reg)

/-- Result of `cancelCronJob` (src/lib/index.js lines 137-146), with the
store-effect bookkeeping made explicit: `didLookup` records whether
`findById` was issued against the store, `didPatch` whether a patch was
written, `errThrown` the error the async function rejects with, if any. -/
structure CancelOutcome where
  db : List JobRecord
  registry : Registry
  didLookup : Bool
  didPatch : Bool
  errThrown : Option String
deriving DecidableEq, Repr

/-- `cancelCronJob(database, id, message)` (src/lib/index.js lines 137-146):
reads `jobs[id]`; when absent, `job.stop()` throws a TypeError before any
state changes.  Otherwise the timer is stopped and deleted from the map, then
the record is looked up by id; `findById` on the sentinel (or a missing id)
yields undefined and the following `$query()` throws, so no patch happens;
on a found record it is patched to `done = false, error = message`. -/
def cancelCronJob (db : List JobRecord) (reg : Registry) (i : JobId)
    (message : String) : CancelOutcome :=
  match registryFind reg i with
  | none =>
      { db := db, registry := reg, didLookup := false, didPatch := false,
        errThrown := some "TypeError: cannot read properties of undefined (reading stop)" }
  | some _ =>
      let reg2 := registryRemove reg i
      match i with
      | JobId.noPersistance =>
          { db := db, registry := reg2, didLookup := true, didPatch := false,
            errThrown := some "TypeError: cannot read properties of undefined (reading $query)" }
      | JobId.dbId n =>
          match findById db n with
          | none =>
              { db := db, registry := reg2, didLookup := true,
                didPatch := false,
                errThrown := some "TypeError: cannot read properties of undefined (reading $query)" }
          | some _ =>
              { db := patchById db (JobId.dbId n) (failPatch message),
                registry := reg2, didLookup := true, didPatch := true,
                errThrown := none }

/-- JavaScript string-truthiness: null/absent and the empty string are falsy.
Used by the spread-guards `...user && \x7b user \x7d` in `killTasks`. -/
def truthyOpt : Option String → Bool
  | none => false
  | some s => s != ""

/-- Lexicographic order on character lists, the order SQL uses to compare the
string `cron` column with the ISO timestamp in
`.andWhere(cron, >=, moment().toISOString())`. -/
def lexLe : List Char → List Char → Bool
  | [], _ => true
  | _ :: _, [] => false
  | a :: as, b :: bs => if a = b then lexLe as bs else decide (a < b)

/-- String comparison `a >= b` as performed by the store. -/
def strGe (a b : String) : Bool := lexLe b.data a.data

/-- The search argument object of `killTasks` (src/lib/index.js lines
102-109) after destructuring: every absent field is null, except
`conversationAs` which destructures with the default value bot. -/
structure KillArgs where
  id : Option JobId := none
  user : Option String := none
  slash : Option String := none
  action : Option String := none
  conversationWith : Option (List String) := none
  conversationAs : String := "bot"
deriving Repr

/-- The default `message` parameter of `killTasks`. -/
def defaultKillMessage : String := "Killed by Aido command"

/-- The predicate built by the `killTasks` query (src/lib/index.js lines
113-126): `done` is null, the stored `cron` string compares `>=` the current
ISO instant, and each truthy search field must equal the stored column;
`conversationWith`, when non-null, is compared by exact JSON text equality. -/
def jobMatchesFilter (args : KillArgs) (nowIso : String) (r : JobRecord) :
    Bool :=
  (r.done == none)
  && strGe r.cron nowIso
  && (match args.user with
      | some u => if u != "" then r.user == u else true
      | none => true)
  && (match args.slash with
      | some s => if s != "" then r.slash == s else true
      | none => true)
  && (match args.action with
      | some a => if a != "" then r.action == some a else true
      | none => true)
  && (if args.conversationAs != "" then
        r.conversationAs == some args.conversationAs
      else true)
  && (match args.conversationWith with
      | some l => r.conversationWith == some l
      | none => true)

/-- Result of `killTasks`: the final store and registry, and the ids that
were routed through `cancelCronJob`. -/
structure KillOutcome where
  db : List JobRecord
  registry : Registry
  cancelled : List JobId
deriving Repr

/-- The `Promise.all` fan-out of `cancelCronJob` over the matched records.
The matched cancellations are independent (distinct ids), so the concurrent
fan-out is modelled as a left fold. -/
def foldCancel (sel : List JobRecord) (db : List JobRecord) (reg : Registry)
    (message : String) : List JobRecord × Registry :=
  sel.foldl
    (fun st r =>
      let o := cancelCronJob st.1 st.2 (JobId.dbId r.id) message
      (o.db, o.registry))
    (db, reg)

/-- `killTasks(database, args, message)` (src/lib/index.js lines 102-129):
a truthy `id` takes the direct path through `cancelCronJob`; otherwise the
store is queried with `jobMatchesFilter` and every match is cancelled.
`message` is `none` when the caller omitted it, in which case the default
applies. -/
def killTasks (db : List JobRecord) (reg : Registry) (args : KillArgs)
    (nowIso : String) (message : Option String) : KillOutcome :=
  let msg := message.getD defaultKillMessage
  match args.id with
  | some i =>
      let o := cancelCronJob db reg i msg
      { db := o.db, registry := o.registry, cancelled := [i] }
  | none =>
      let selected := db.filter (jobMatchesFilter args nowIso)
      let fin := foldCancel selected db reg msg
      { db := fin.1, registry := fin.2,
        cancelled := selected.map (fun r => JobId.dbId r.id) }

/-- The row `scheduleTask` hands to `database.Job.query().insert`
(src/lib/index.js lines 75-86).  `cron` is always a string (either the
pattern itself or the ISO rendering of the instant); the other inserted
fields may be absent (undefined). -/
structure JobInsert where
  cron : String
  user : Option String := none
  slash : Option String := none
  text : Option String := none
  action : Option String := none
  channel : Option String := none
  conversationWith : Option (List String) := none
  conversationAs : Option String := none
deriving DecidableEq, Repr

/-- `isString(cronTime) ? cronTime : moment(cronTime).toISOString()`:
the stored form of the cron time, with the ISO rendering abstract. -/
def storedCron (toIso : Nat → String) : CronTime → String
  | CronTime.pattern s => s
  | CronTime.instant t => toIso t

/-- Options bag of `scheduleTask`. -/
structure ScheduleOptions where
  channel : Option String := none
  conversationWith : Option (List String) := none
  conversationAs : Option String := none
deriving Repr

/-- The insert row built by `scheduleTask` from its parameters. -/
def jobInsertOfParams (toIso : Nat → String) (ct : CronTime)
    (user slash text action : Option String) (opts : ScheduleOptions) :
    JobInsert :=
  { cron := storedCron toIso ct, user := user, slash := slash, text := text,
    action := action, channel := opts.channel,
    conversationWith := opts.conversationWith,
    conversationAs := opts.conversationAs }

/-- Length-range check used by the JSON schema keywords minLength/maxLength. -/
def lenBetween (lo hi : Nat) (s : String) : Bool :=
  decide (lo ≤ s.length) && decide (s.length ≤ hi)

/-- A schema keyword on an optional property holds vacuously when absent. -/
def optConstraint (p : String → Bool) : Option String → Bool
  | none => true
  | some s => p s

/-- The objection jsonSchema validation of the `Job` model
(src/lib/database/job.js lines 16-36): required cron, user, slash;
cron 1..50, user exactly 9, slash 1..255, action 1..255 when present,
channel exactly 9 when present, conversationAs 3..4 when present. -/
def validateJobInsert (j : JobInsert) : Bool :=
  j.user.isSome && j.slash.isSome
  && lenBetween 1 50 j.cron
  && optConstraint (fun s => s.length == 9) j.user
  && optConstraint (lenBetween 1 255) j.slash
  && optConstraint (lenBetween 1 255) j.action
  && optConstraint (fun s => s.length == 9) j.channel
  && optConstraint (lenBetween 3 4) j.conversationAs

/-- The persisted record created by a successful insert: the store assigns
the next auto-increment id and the row starts with `done` and `error` null. -/
def recordOfInsert (n : Nat) (j : JobInsert) : JobRecord :=
  { id := n, cron := j.cron, user := j.user.getD "", slash := j.slash.getD "",
    text := j.text, action := j.action, channel := j.channel,
    conversationWith := j.conversationWith,
    conversationAs := j.conversationAs, done := none, error := none }

/-- Result of `scheduleTask`: on a validation error the insert rejects, the
error propagates, and neither the store nor the registry changes. -/
structure ScheduleOutcome where
  store : List JobRecord
  nextId : Nat
  registry : Registry
  result : Except String JobId

/-- Whether an Except value is a success. -/
def exceptOk {α β : Type} : Except α β → Bool
  | Except.ok _ => true
  | Except.error _ => false

/-- `scheduleTask` (src/lib/index.js lines 74-89): insert the record (which
validates it against the jsonSchema first), then register the timer with
`setCronJob`.  When validation fails the insert rejects synchronously and
`setCronJob` is never reached. -/
def scheduleTask (toIso : Nat → String) (db : List JobRecord) (nextId : Nat)
    (reg : Registry) (ct : CronTime) (user slash text action : Option String)
    (opts : ScheduleOptions) : ScheduleOutcome :=
  let ins := jobInsertOfParams toIso ct user slash text action opts
  if validateJobInsert ins then
    let row := recordOfInsert nextId ins
    { store := db ++ [row], nextId := nextId + 1,
      registry := (setCronJob reg (JobId.dbId nextId) ct).1,
      result := Except.ok (JobId.dbId nextId) }
  else
    { store := db, nextId := nextId, registry := reg,
      result := Except.error "ValidationError" }

/-- The recovery classification inside `initPlugin` (src/lib/index.js lines
241-254): if `moment(job.cron)` is valid (`parse` succeeds) and the instant is
strictly before now, re-arm at now plus one second; if valid and not in the
past, use the parsed instant; otherwise the raw string is a CRON pattern. -/
def classifyCron (parse : String → Option Nat) (now : Nat) (cron : String) :
    CronTime :=
  match parse cron with
  | some t =>
      if t < now then CronTime.instant (now + 1) else CronTime.instant t
  | none => CronTime.pattern cron

/-- `initPlugin` (src/lib/index.js lines 237-257): query all records with
`done` null, classify each stored cron value and re-register the job. -/
def initPlugin (parse : String → Option Nat) (now : Nat)
    (db : List JobRecord) (reg : Registry) : Registry :=
  (db.filter (fun r => r.done == none)).foldl
    (fun acc r =>
      (setCronJob acc (JobId.dbId r.id) (classifyCron parse now r.cron)).1)
    reg

/-! Concrete sample data used to evaluate the development on closed inputs. -/

/-- A pending persisted one-shot job. -/
def demoJob : JobRecord :=
  { id := 1, cron := "2030-01-01T00:00:00.000Z", user := "U12345678",
    slash := "ping", conversationAs := some "bot" }

/-- A pending persisted job for a different user. -/
def demoJob2 : JobRecord :=
  { id := 2, cron := "2030-01-01T00:00:00.000Z", user := "U22222222",
    slash := "ping", conversationAs := some "bot" }

/-- An already-completed job for the first user. -/
def demoJob3 : JobRecord :=
  { id := 3, cron := "2030-01-01T00:00:00.000Z", user := "U12345678",
    slash := "ping", conversationAs := some "bot", done := some true }

/-- A pending recurring job. -/
def demoRecurring : JobRecord :=
  { id := 6, cron := "0 */10 * * * *", user := "U12345678", slash := "ping" }

/-- A sample date parser: two strings are valid instants, the rest are not. -/
def demoParse : String → Option Nat :=
  fun s => if s = "past" then some 3 else if s = "future" then some 9 else none

/-- A sample ISO rendering of an instant. -/
def demoIso : Nat → String := fun _ => "2030-01-01T00:00:00.000Z"

/-! Basic lemmas about the store and the registry. -/

theorem findById_patch_self (db : List JobRecord) (n : Nat)
    (f : JobRecord → JobRecord) (hf : ∀ r, (f r).id = r.id) :
    findById (db.map (fun r => if r.id == n then f r else r)) n
      = (findById db n).map f := by
  induction db with
  | nil => rfl
  | cons a l ih =>
      by_cases h : a.id = n
      · simp [findById, List.find?, h, hf a]
      · simp only [findById, List.map_cons] at *
        rw [if_neg (by simpa using h)]
        simp only [List.find?]
        rw [show (a.id == n) = false by simpa using h]
        exact ih

theorem findById_patch_other (db : List JobRecord) (n m : Nat)
    (f : JobRecord → JobRecord) (hf : ∀ r, (f r).id = r.id) (hnm : n ≠ m) :
    findById (db.map (fun r => if r.id == n then f r else r)) m
      = findById db m := by
  induction db with
  | nil => rfl
  | cons a l ih =>
      by_cases h : a.id = n
      · have hfm : ((f a).id == m) = false := by
          simp [hf a, h]
          omega
        have ham : (a.id == m) = false := by
          simp [h]
          omega
        simp only [findById, List.map_cons] at *
        rw [if_pos (by simpa using h)]
        simp only [List.find?, hfm, ham]
        exact ih
      · simp only [findById, List.map_cons] at *
        rw [if_neg (by simpa using h)]
        simp only [List.find?]
        cases hx : (a.id == m) with
        | true => rfl
        | false => exact ih

theorem findById_of_nodup (db : List JobRecord) (r : JobRecord)
    (hnd : (db.map JobRecord.id).Nodup) (hr : r ∈ db) :
    findById db r.id = some r := by
  induction db with
  | nil => cases hr
  | cons a l ih =>
      simp only [List.map_cons, List.nodup_cons] at hnd
      rcases List.mem_cons.mp hr with h | h
      · subst h
        simp [findById, List.find?]
      · have hne : (a.id == r.id) = false := by
          have : r.id ∈ l.map JobRecord.id := List.mem_map.mpr ⟨r, h, rfl⟩
          simp only [beq_eq_false_iff_ne, ne_eq]
          intro he
          exact hnd.1 (he ▸ this)
        simp only [findById, List.find?, hne]
        exact ih hnd.2 h

theorem registryFind_remove_self (reg : Registry) (i : JobId) :
    registryFind (registryRemove reg i) i = none := by
  induction reg with
  | nil => rfl
  | cons a l ih =>
      simp only [registryRemove, List.filter] at *
      by_cases h : a.1 = i
      · rw [show (a.1 != i) = false by simpa using h]
        exact ih
      · rw [show (a.1 != i) = true by simpa using h]
        simp only [registryFind, List.find?] at *
        rw [show (a.1 == i) = false by simpa using h]
        exact ih

theorem registryFind_remove_other (reg : Registry) (i j : JobId) (h : j ≠ i) :
    registryFind (registryRemove reg i) j = registryFind reg j := by
  induction reg with
  | nil => rfl
  | cons a l ih =>
      simp only [registryRemove, List.filter] at *
      by_cases ha : a.1 = i
      · have haj : (a.1 == j) = false := by
          simp only [beq_eq_false_iff_ne, ne_eq]
          intro he
          exact h (he.symm.trans ha)
        rw [show (a.1 != i) = false by simpa using ha]
        simp only [registryFind, List.find?, haj] at *
        exact ih
      · rw [show (a.1 != i) = true by simpa using ha]
        simp only [registryFind, List.find?] at *
        cases hx : (a.1 == j) with
        | true => rfl
        | false => exact ih

theorem registryFind_insert_self (reg : Registry) (i : JobId) (ct : CronTime) :
    registryFind (registryInsert reg i ct) i = some ct := by
  simp [registryFind, registryInsert, List.find?]

/-! Lemmas about `cancelCronJob` and the batch fan-out `foldCancel`. -/

theorem cancel_found (db : List JobRecord) (reg : Registry) (n : Nat)
    (ct : CronTime) (x : JobRecord) (msg : String)
    (h1 : registryFind reg (JobId.dbId n) = some ct)
    (h2 : findById db n = some x) :
    cancelCronJob db reg (JobId.dbId n) msg =
      { db := patchById db (JobId.dbId n) (failPatch msg),
        registry := registryRemove reg (JobId.dbId n),
        didLookup := true, didPatch := true, errThrown := none } := by
  simp [cancelCronJob, h1, h2]

theorem cancel_db_other (db : List JobRecord) (reg : Registry) (i : JobId)
    (msg : String) (m : Nat) (him : i ≠ JobId.dbId m) :
    findById (cancelCronJob db reg i msg).db m = findById db m := by
  cases i with
  | noPersistance =>
      cases hr : registryFind reg JobId.noPersistance with
      | none => simp [cancelCronJob, hr]
      | some ct => simp [cancelCronJob, hr]
  | dbId n =>
      cases hr : registryFind reg (JobId.dbId n) with
      | none => simp [cancelCronJob, hr]
      | some ct =>
          cases hf : findById db n with
          | none => simp [cancelCronJob, hr, hf]
          | some x =>
              simp only [cancelCronJob, hr, hf]
              have hnm : n ≠ m := fun he => him (by rw [he])
              exact findById_patch_other db n m (failPatch msg)
                (fun r => rfl) hnm

theorem cancel_reg_other (db : List JobRecord) (reg : Registry) (i : JobId)
    (msg : String) (j : JobId) (hij : j ≠ i) :
    registryFind (cancelCronJob db reg i msg).registry j
      = registryFind reg j := by
  cases i with
  | noPersistance =>
      cases hr : registryFind reg JobId.noPersistance with
      | none => simp [cancelCronJob, hr]
      | some ct =>
          simp only [cancelCronJob, hr]
          exact registryFind_remove_other reg _ j hij
  | dbId n =>
      cases hr : registryFind reg (JobId.dbId n) with
      | none => simp [cancelCronJob, hr]
      | some ct =>
          cases hf : findById db n with
          | none =>
              simp only [cancelCronJob, hr, hf]
              exact registryFind_remove_other reg _ j hij
          | some x =>
              simp only [cancelCronJob, hr, hf]
              exact registryFind_remove_other reg _ j hij

theorem foldCancel_db_other (sel : List JobRecord) (db : List JobRecord)
    (reg : Registry) (msg : String) (m : Nat)
    (h : ∀ r ∈ sel, r.id ≠ m) :
    findById (foldCancel sel db reg msg).1 m = findById db m := by
  induction sel generalizing db reg with
  | nil => rfl
  | cons r0 rest ih =>
      show findById (foldCancel rest
          (cancelCronJob db reg (JobId.dbId r0.id) msg).db
          (cancelCronJob db reg (JobId.dbId r0.id) msg).registry msg).1 m
        = findById db m
      rw [ih _ _ (fun r hr => h r (List.mem_cons_of_mem _ hr))]
      exact cancel_db_other db reg _ msg m
        (fun he => h r0 (List.mem_cons_self _ _) (JobId.dbId.inj he))

theorem foldCancel_reg_other (sel : List JobRecord) (db : List JobRecord)
    (reg : Registry) (msg : String) (j : JobId)
    (h : ∀ r ∈ sel, j ≠ JobId.dbId r.id) :
    registryFind (foldCancel sel db reg msg).2 j = registryFind reg j := by
  induction sel generalizing db reg with
  | nil => rfl
  | cons r0 rest ih =>
      show registryFind (foldCancel rest
          (cancelCronJob db reg (JobId.dbId r0.id) msg).db
          (cancelCronJob db reg (JobId.dbId r0.id) msg).registry msg).2 j
        = registryFind reg j
      rw [ih _ _ (fun r hr => h r (List.mem_cons_of_mem _ hr))]
      exact cancel_reg_other db reg _ msg j (h r0 (List.mem_cons_self _ _))

theorem foldCancel_processed (sel : List JobRecord) (db : List JobRecord)
    (reg : Registry) (msg : String)
    (hnd : (sel.map JobRecord.id).Nodup)
    (hlive : ∀ r ∈ sel, ∃ ct, registryFind reg (JobId.dbId r.id) = some ct)
    (hfound : ∀ r ∈ sel, findById db r.id = some r) :
    ∀ r ∈ sel,
      findById (foldCancel sel db reg msg).1 r.id = some (failPatch msg r)
      ∧ registryFind (foldCancel sel db reg msg).2 (JobId.dbId r.id) = none := by
  induction sel generalizing db reg with
  | nil => intro r hr; cases hr
  | cons r0 rest ih =>
      obtain ⟨ct0, hct0⟩ := hlive r0 (List.mem_cons_self _ _)
      have hf0 := hfound r0 (List.mem_cons_self _ _)
      have hcancel := cancel_found db reg r0.id ct0 r0 msg hct0 hf0
      simp only [List.map_cons, List.nodup_cons] at hnd
      have hr0rest : ∀ r ∈ rest, r.id ≠ r0.id := by
        intro r hr he
        exact hnd.1 (he ▸ List.mem_map.mpr ⟨r, hr, rfl⟩)
      intro r hr
      rcases List.mem_cons.mp hr with he | hrrest
      · subst he
        constructor
        · show findById (foldCancel rest
              (cancelCronJob db reg (JobId.dbId r.id) msg).db
              (cancelCronJob db reg (JobId.dbId r.id) msg).registry msg).1 r.id
            = some (failPatch msg r)
          rw [foldCancel_db_other rest _ _ msg r.id hr0rest, hcancel]
          show findById (db.map (fun s =>
              if s.id == r.id then failPatch msg s else s)) r.id
            = some (failPatch msg r)
          rw [findById_patch_self db r.id (failPatch msg) (fun s => rfl), hf0]
          rfl
        · show registryFind (foldCancel rest
              (cancelCronJob db reg (JobId.dbId r.id) msg).db
              (cancelCronJob db reg (JobId.dbId r.id) msg).registry msg).2
              (JobId.dbId r.id) = none
          rw [foldCancel_reg_other rest _ _ msg (JobId.dbId r.id)
              (fun s hs he => hr0rest s hs (JobId.dbId.inj he).symm), hcancel]
          exact registryFind_remove_self reg (JobId.dbId r.id)
      · have hlive2 : ∀ s ∈ rest, ∃ ct,
            registryFind (cancelCronJob db reg (JobId.dbId r0.id) msg).registry
              (JobId.dbId s.id) = some ct := by
          intro s hs
          rw [cancel_reg_other db reg _ msg _
              (fun he => hr0rest s hs (JobId.dbId.inj he))]
          exact hlive s (List.mem_cons_of_mem _ hs)
        have hfound2 : ∀ s ∈ rest,
            findById (cancelCronJob db reg (JobId.dbId r0.id) msg).db s.id
              = some s := by
          intro s hs
          rw [cancel_db_other db reg _ msg _
              (fun he => hr0rest s hs (JobId.dbId.inj he).symm)]
          exact hfound s (List.mem_cons_of_mem _ hs)
        exact ih _ _ hnd.2 hlive2 hfound2 r hrrest

/-! Claim theorems. -/

/-- C1: when the fire callback dispatch succeeds, a persisted (non-sentinel)
job whose timer is one-shot (an instant cron time) has its record patched to
the succeeded state (done = true), while a recurring (pattern) job leaves the
store untouched, so its completion flag stays unset. -/
theorem fire_success_completion (db : List JobRecord) (reg : Registry)
    (n t : Nat) (s : String) :
    findById (fireJob db reg (JobId.dbId n) (CronTime.instant t)
        DispatchResult.ok).1 n
      = (findById db n).map donePatch
    ∧ (fireJob db reg (JobId.dbId n) (CronTime.pattern s)
        DispatchResult.ok).1 = db := by
  constructor
  · show findById (db.map (fun r => if r.id == n then donePatch r else r)) n
      = (findById db n).map donePatch
    exact findById_patch_self db n donePatch (fun r => rfl)
  · rfl

/-- C3: a dispatch error during firing is caught (the callback returns
normally); a persisted job is patched to done = false with the stringified
error, the ephemeral sentinel gets no patch, and the registry (hence the
timer) is untouched, so a recurring job keeps firing. -/
theorem fire_failure_handling (db : List JobRecord) (reg : Registry)
    (n : Nat) (ct : CronTime) (msg : String) :
    findById (fireJob db reg (JobId.dbId n) ct (DispatchResult.err msg)).1 n
      = (findById db n).map (failPatch msg)
    ∧ (fireJob db reg JobId.noPersistance ct (DispatchResult.err msg)).1 = db
    ∧ (fireJob db reg (JobId.dbId n) ct (DispatchResult.err msg)).2 = reg := by
  refine ⟨?_, rfl, rfl⟩
  show findById (db.map (fun r => if r.id == n then failPatch msg r else r)) n
    = (findById db n).map (failPatch msg)
  exact findById_patch_self db n (failPatch msg) (fun r => rfl)

/-- C5 counterexample: a persisted one-shot job fires successfully, reaching
the terminal state done = true, yet its entry is still present in the
in-memory registry — the fire callback never deletes from the `jobs` map. -/
theorem oneshot_completion_keeps_registry_entry :
    (findById (fireJob [demoJob] [(JobId.dbId 1, CronTime.instant 5)]
        (JobId.dbId 1) (CronTime.instant 5) DispatchResult.ok).1 1).map
        JobRecord.done
      = some (some true)
    ∧ (fireJob [demoJob] [(JobId.dbId 1, CronTime.instant 5)]
        (JobId.dbId 1) (CronTime.instant 5) DispatchResult.ok).2
      = [(JobId.dbId 1, CronTime.instant 5)] := ⟨rfl, rfl⟩

/-- C5 amended: firing (successful or failed) never changes the registry
map; only explicit cancellation of an id with a live timer removes its
entry. -/
theorem registry_entry_removed_only_by_cancel (db : List JobRecord)
    (reg : Registry) (i : JobId) (ct ct2 : CronTime) (oc : DispatchResult)
    (msg : String) (h : registryFind reg i = some ct) :
    (fireJob db reg i ct2 oc).2 = reg
    ∧ registryFind (cancelCronJob db reg i msg).registry i = none := by
  constructor
  · cases oc with
    | ok =>
        simp only [fireJob]
        split <;> rfl
    | err m =>
        simp only [fireJob]
        split <;> rfl
  · cases i with
    | noPersistance =>
        simp only [cancelCronJob, h]
        exact registryFind_remove_self reg _
    | dbId n =>
        simp only [cancelCronJob, h]
        cases hf : findById db n with
        | none =>
            simp only [hf]
            exact registryFind_remove_self reg _
        | some x =>
            simp only [hf]
            exact registryFind_remove_self reg _

/-- Witness for the amended C5 statement at a concrete state. -/
theorem registry_entry_removed_only_by_cancel_witness :
    (fireJob [demoJob] [(JobId.dbId 1, CronTime.instant 5)] (JobId.dbId 1)
        (CronTime.instant 5) DispatchResult.ok).2
      = [(JobId.dbId 1, CronTime.instant 5)]
    ∧ registryFind (cancelCronJob [demoJob]
        [(JobId.dbId 1, CronTime.instant 5)] (JobId.dbId 1) "bye").registry
        (JobId.dbId 1) = none :=
  registry_entry_removed_only_by_cancel [demoJob]
    [(JobId.dbId 1, CronTime.instant 5)] (JobId.dbId 1) (CronTime.instant 5)
    (CronTime.instant 5) DispatchResult.ok "bye" rfl

/-- C6 counterexample: a failed firing of a pending recurring persisted job
does set its completion flag to the terminal failed state (done = false) —
the catch branch patches every non-sentinel job, recurring included. -/
theorem recurring_failed_fire_sets_flag :
    (findById (fireJob [demoRecurring]
        [(JobId.dbId 6, CronTime.pattern "0 */10 * * * *")] (JobId.dbId 6)
        (CronTime.pattern "0 */10 * * * *")
        (DispatchResult.err "network down")).1 6).map JobRecord.done
      = some (some false) := rfl

/-- C6 amended: a successful firing of a recurring persisted job never sets
the completion flag (the store is unchanged), but a failed firing patches the
record to done = false with the error detail, exactly as for one-shot jobs;
the timer itself keeps running in both cases. -/
theorem recurring_fire_flag (db : List JobRecord) (reg : Registry)
    (n : Nat) (s msg : String) :
    (fireJob db reg (JobId.dbId n) (CronTime.pattern s)
        DispatchResult.ok).1 = db
    ∧ findById (fireJob db reg (JobId.dbId n) (CronTime.pattern s)
        (DispatchResult.err msg)).1 n
      = (findById db n).map (failPatch msg)
    ∧ (fireJob db reg (JobId.dbId n) (CronTime.pattern s)
        (DispatchResult.err msg)).2 = reg := by
  refine ⟨rfl, ?_, rfl⟩
  show findById (db.map (fun r => if r.id == n then failPatch msg r else r)) n
    = (findById db n).map (failPatch msg)
  exact findById_patch_self db n (failPatch msg) (fun r => rfl)

/-- C7: cancelling an ephemeral (sentinel-id) job with a live timer stops it
and removes it from the registry, but — contrary to the specified behaviour —
`cancelCronJob` has no sentinel guard: it does issue the store lookup
(`findById` on the sentinel), finds nothing, and the call rejects with a
TypeError; only the patch is (accidentally) skipped. -/
theorem cancel_ephemeral_touches_store :
    (cancelCronJob []
        [(JobId.noPersistance, CronTime.pattern "0 */10 * * * *")]
        JobId.noPersistance "bye").didLookup = true
    ∧ (cancelCronJob []
        [(JobId.noPersistance, CronTime.pattern "0 */10 * * * *")]
        JobId.noPersistance "bye").didPatch = false
    ∧ (cancelCronJob []
        [(JobId.noPersistance, CronTime.pattern "0 */10 * * * *")]
        JobId.noPersistance "bye").errThrown.isSome = true
    ∧ registryFind (cancelCronJob []
        [(JobId.noPersistance, CronTime.pattern "0 */10 * * * *")]
        JobId.noPersistance "bye").registry JobId.noPersistance = none :=
  ⟨rfl, rfl, rfl, rfl⟩

/-- C9: a direct-id cancellation of an id with no live timer rejects with a
caller-visible error (the TypeError thrown by calling stop on undefined) and
changes nothing: no store patch, store and registry untouched. -/
theorem cancel_missing_timer_fails (db : List JobRecord) (reg : Registry)
    (i : JobId) (msg : String) (h : registryFind reg i = none) :
    (cancelCronJob db reg i msg).errThrown.isSome = true
    ∧ (cancelCronJob db reg i msg).db = db
    ∧ (cancelCronJob db reg i msg).registry = reg
    ∧ (cancelCronJob db reg i msg).didPatch = false := by
  simp [cancelCronJob, h]

/-- Witness for C9 at a concrete state with an empty registry. -/
theorem cancel_missing_timer_fails_witness :
    (cancelCronJob [demoJob] [] (JobId.dbId 1) "stop it").errThrown.isSome
      = true
    ∧ (cancelCronJob [demoJob] [] (JobId.dbId 1) "stop it").db = [demoJob]
    ∧ (cancelCronJob [demoJob] [] (JobId.dbId 1) "stop it").registry = []
    ∧ (cancelCronJob [demoJob] [] (JobId.dbId 1) "stop it").didPatch
      = false :=
  cancel_missing_timer_fails [demoJob] [] (JobId.dbId 1) "stop it" rfl

/-- C2: recovery classifies a stored timeSpec string as follows: a string
parsing as an instant strictly in the past is re-armed at now plus one
second; a string parsing as a future instant keeps that exact instant; a
string that does not parse is passed through unchanged as a recurring
pattern.  Moreover `initPlugin` re-registers a pending record under its id
with exactly this classified time. -/
theorem recovery_classification (parse : String → Option Nat) (now : Nat)
    (cron : String) :
    (∀ t, parse cron = some t → t < now →
        classifyCron parse now cron = CronTime.instant (now + 1))
    ∧ (∀ t, parse cron = some t → now < t →
        classifyCron parse now cron = CronTime.instant t)
    ∧ (parse cron = none →
        classifyCron parse now cron = CronTime.pattern cron)
    ∧ (∀ (r : JobRecord) (reg : Registry), r.done = none →
        registryFind (initPlugin parse now [r] reg) (JobId.dbId r.id)
          = some (classifyCron parse now r.cron)) := by
  refine ⟨?_, ?_, ?_, ?_⟩
  · intro t ht hlt
    simp [classifyCron, ht, hlt]
  · intro t ht hgt
    have hnlt : ¬ t < now := by omega
    simp [classifyCron, ht, hnlt]
  · intro h
    simp [classifyCron, h]
  · intro r reg hr
    have hdone : (r.done == none) = true := by rw [hr]; rfl
    simp only [initPlugin, List.filter, hdone, List.foldl]
    exact registryFind_insert_self reg _ _

/-- Witness for C2: all three classification branches and the re-arming of a
pending record evaluated at concrete inputs. -/
theorem recovery_classification_witness :
    classifyCron demoParse 5 "past" = CronTime.instant 6
    ∧ classifyCron demoParse 5 "future" = CronTime.instant 9
    ∧ classifyCron demoParse 5 "0 */10 * * * *"
      = CronTime.pattern "0 */10 * * * *"
    ∧ registryFind (initPlugin demoParse 5 [demoJob] []) (JobId.dbId 1)
      = some (classifyCron demoParse 5 demoJob.cron) :=
  ⟨(recovery_classification demoParse 5 "past").1 3 (by decide) (by decide),
   (recovery_classification demoParse 5 "future").2.1 9 (by decide)
     (by decide),
   (recovery_classification demoParse 5 "0 */10 * * * *").2.2.1 (by decide),
   (recovery_classification demoParse 5 "x").2.2.2 demoJob [] rfl⟩

/-- C4: direct-id cancellation of a job with a live timer and a persisted
record removes the timer from the registry and patches the record to
done = false with the supplied message, or with the default message
"Killed by Aido command" when none is supplied. -/
theorem kill_direct_id (db : List JobRecord) (reg : Registry) (n : Nat)
    (ct : CronTime) (x : JobRecord) (m nowIso : String)
    (hreg : registryFind reg (JobId.dbId n) = some ct)
    (hdb : findById db n = some x) :
    registryFind (killTasks db reg { id := some (JobId.dbId n) } nowIso
        (some m)).registry (JobId.dbId n) = none
    ∧ findById (killTasks db reg { id := some (JobId.dbId n) } nowIso
        (some m)).db n = some (failPatch m x)
    ∧ findById (killTasks db reg { id := some (JobId.dbId n) } nowIso
        none).db n = some (failPatch "Killed by Aido command" x) := by
  have hc := cancel_found db reg n ct x m hreg hdb
  have hcd := cancel_found db reg n ct x "Killed by Aido command" hreg hdb
  refine ⟨?_, ?_, ?_⟩
  · show registryFind (cancelCronJob db reg (JobId.dbId n) m).registry
        (JobId.dbId n) = none
    rw [hc]
    exact registryFind_remove_self reg _
  · show findById (cancelCronJob db reg (JobId.dbId n) m).db n
      = some (failPatch m x)
    rw [hc]
    show findById (db.map fun r => if r.id == n then failPatch m r else r) n
      = some (failPatch m x)
    rw [findById_patch_self db n (failPatch m) (fun r => rfl), hdb]
    rfl
  · show findById (cancelCronJob db reg (JobId.dbId n)
        "Killed by Aido command").db n
      = some (failPatch "Killed by Aido command" x)
    rw [hcd]
    show findById (db.map fun r =>
        if r.id == n then failPatch "Killed by Aido command" r else r) n
      = some (failPatch "Killed by Aido command" x)
    rw [findById_patch_self db n (failPatch "Killed by Aido command")
        (fun r => rfl), hdb]
    rfl

/-- Witness for C4 at a concrete state. -/
theorem kill_direct_id_witness :
    registryFind (killTasks [demoJob] [(JobId.dbId 1, CronTime.instant 5)]
        { id := some (JobId.dbId 1) } "now" (some "manual stop")).registry
        (JobId.dbId 1) = none
    ∧ findById (killTasks [demoJob] [(JobId.dbId 1, CronTime.instant 5)]
        { id := some (JobId.dbId 1) } "now" (some "manual stop")).db 1
      = some (failPatch "manual stop" demoJob)
    ∧ findById (killTasks [demoJob] [(JobId.dbId 1, CronTime.instant 5)]
        { id := some (JobId.dbId 1) } "now" none).db 1
      = some (failPatch "Killed by Aido command" demoJob) :=
  kill_direct_id [demoJob] [(JobId.dbId 1, CronTime.instant 5)] 1
    (CronTime.instant 5) demoJob "manual stop" "now" rfl rfl

/-- Extraction of the shape constraints guaranteed by a successful jsonSchema
validation. -/
theorem validate_shape (j : JobInsert) (hv : validateJobInsert j = true) :
    (∃ u, j.user = some u ∧ u.length = 9)
    ∧ j.slash.isSome = true
    ∧ (1 ≤ j.cron.length ∧ j.cron.length ≤ 50)
    ∧ (∀ c, j.channel = some c → c.length = 9)
    ∧ (∀ a, j.conversationAs = some a → 3 ≤ a.length ∧ a.length ≤ 4) := by
  simp only [validateJobInsert, Bool.and_eq_true] at hv
  obtain ⟨⟨⟨⟨⟨⟨⟨hu1, hs1⟩, hc1⟩, hu2⟩, hs2⟩, ha2⟩, hch⟩, hca⟩ := hv
  refine ⟨?_, hs1, ?_, ?_, ?_⟩
  · cases hu : j.user with
    | none => rw [hu] at hu1; exact absurd hu1 (by simp)
    | some u =>
        rw [hu] at hu2
        refine ⟨u, rfl, ?_⟩
        simpa [optConstraint] using hu2
  · simpa [lenBetween, Bool.and_eq_true, decide_eq_true_eq] using hc1
  · intro c hc
    rw [hc] at hch
    simpa [optConstraint] using hch
  · intro a ha
    rw [ha] at hca
    simpa [optConstraint, lenBetween, Bool.and_eq_true, decide_eq_true_eq]
      using hca

/-- C10: the create path succeeds only when the inserted record satisfies
the jsonSchema shape constraints (user present with length exactly 9, slash
present, cron of length 1 to 50, channel of length exactly 9 when present,
conversationAs of length 3 to 4 when present); a violating record is
rejected synchronously and neither the store nor the registry changes — in
particular no timer is registered. -/
theorem scheduleTask_validates_shape (toIso : Nat → String)
    (db : List JobRecord) (nextId : Nat) (reg : Registry) (ct : CronTime)
    (user slash text action : Option String) (opts : ScheduleOptions) :
    (exceptOk (scheduleTask toIso db nextId reg ct user slash text action
        opts).result = true →
      (∃ u, user = some u ∧ u.length = 9)
      ∧ slash.isSome = true
      ∧ (1 ≤ (storedCron toIso ct).length
          ∧ (storedCron toIso ct).length ≤ 50)
      ∧ (∀ c, opts.channel = some c → c.length = 9)
      ∧ (∀ a, opts.conversationAs = some a → 3 ≤ a.length ∧ a.length ≤ 4))
    ∧ (¬ ((∃ u, user = some u ∧ u.length = 9)
        ∧ slash.isSome = true
        ∧ (1 ≤ (storedCron toIso ct).length
            ∧ (storedCron toIso ct).length ≤ 50)
        ∧ (∀ c, opts.channel = some c → c.length = 9)
        ∧ (∀ a, opts.conversationAs = some a →
            3 ≤ a.length ∧ a.length ≤ 4)) →
      exceptOk (scheduleTask toIso db nextId reg ct user slash text action
          opts).result = false
      ∧ (scheduleTask toIso db nextId reg ct user slash text action
          opts).registry = reg
      ∧ (scheduleTask toIso db nextId reg ct user slash text action
          opts).store = db) := by
  cases hv : validateJobInsert
      (jobInsertOfParams toIso ct user slash text action opts) with
  | true =>
      have hs := validate_shape _ hv
      exact ⟨fun _ => hs, fun hn => absurd hs hn⟩
  | false =>
      have hsch : scheduleTask toIso db nextId reg ct user slash text action
          opts
          = { store := db, nextId := nextId, registry := reg,
              result := Except.error "ValidationError" } := by
        simp [scheduleTask, hv]
      constructor
      · intro hok
        rw [hsch] at hok
        exact absurd hok (by simp [exceptOk])
      · intro _
        rw [hsch]
        exact ⟨rfl, rfl, rfl⟩

/-- Witness for C10: a well-shaped request succeeds (so the constraints are
derivable), and a request with a 5-character user id is rejected. -/
theorem scheduleTask_validates_shape_witness :
    (∃ u, (some "U12345678" : Option String) = some u ∧ u.length = 9)
    ∧ exceptOk (scheduleTask demoIso [] 1 [] (CronTime.pattern "* * * * *")
        (some "short") (some "ping") none none {}).result = false := by
  constructor
  · exact ((scheduleTask_validates_shape demoIso [] 1 []
      (CronTime.pattern "* * * * *") (some "U12345678") (some "ping") none
      none {}).1 (by decide)).1
  · refine ((scheduleTask_validates_shape demoIso [] 1 []
      (CronTime.pattern "* * * * *") (some "short") (some "ping") none
      none {}).2 ?_).1
    intro hcon
    obtain ⟨⟨u, hu, hlen⟩, -⟩ := hcon
    obtain rfl : "short" = u := Option.some.inj hu
    exact absurd hlen (by decide)

/-- JavaScript truthiness guard on a filter string, rephrased as a
disjunction. -/
theorem truthyCond (u : String) (b : Bool) :
    (if u != "" then b else true) = (u == "" || b) := by
  cases he : (u == "") with
  | true =>
      have h1 : (u != "") = false := by simp [bne, he]
      rw [h1]
      cases b <;> rfl
  | false =>
      have h1 : (u != "") = true := by simp [bne, he]
      rw [h1]
      cases b <;> rfl

/-- C8: with no direct id, `killTasks` cancels exactly the records selected
by the store query — completion flag unset, stored time (pattern or instant
alike) string-comparing at least the current ISO instant, every truthy
search field equal to the stored column, `conversationAs` (defaulting to
bot) always applied, and `conversationWith` compared by exact structural
equality when provided.  Every selected record goes through the direct-id
cancellation (record patched to failed with the resolved message, timer
removed), and no other record is touched. -/
theorem killTasks_filter_spec (db : List JobRecord) (reg : Registry)
    (args : KillArgs) (nowIso : String) (message : Option String)
    (hid : args.id = none)
    (hca : args.conversationAs ≠ "")
    (hnd : (db.map JobRecord.id).Nodup)
    (hlive : ∀ r ∈ db, jobMatchesFilter args nowIso r = true →
        ∃ ct, registryFind reg (JobId.dbId r.id) = some ct) :
    (killTasks db reg args nowIso message).cancelled
      = (db.filter (fun r =>
          (r.done == none)
          && strGe r.cron nowIso
          && (match args.user with
              | some u => u == "" || r.user == u
              | none => true)
          && (match args.slash with
              | some s => s == "" || r.slash == s
              | none => true)
          && (match args.action with
              | some a => a == "" || r.action == some a
              | none => true)
          && (r.conversationAs == some args.conversationAs)
          && (match args.conversationWith with
              | some l => r.conversationWith == some l
              | none => true))).map (fun r => JobId.dbId r.id)
    ∧ (∀ r ∈ db, jobMatchesFilter args nowIso r = true →
        findById (killTasks db reg args nowIso message).db r.id
          = some (failPatch (message.getD defaultKillMessage) r)
        ∧ registryFind (killTasks db reg args nowIso message).registry
            (JobId.dbId r.id) = none)
    ∧ (∀ m : Nat,
        (∀ r ∈ db, jobMatchesFilter args nowIso r = true → r.id ≠ m) →
        findById (killTasks db reg args nowIso message).db m
          = findById db m) := by
  have hkt : killTasks db reg args nowIso message
      = { db := (foldCancel (db.filter (jobMatchesFilter args nowIso)) db reg
            (message.getD defaultKillMessage)).1,
          registry := (foldCancel (db.filter (jobMatchesFilter args nowIso))
            db reg (message.getD defaultKillMessage)).2,
          cancelled := (db.filter (jobMatchesFilter args nowIso)).map
            (fun r => JobId.dbId r.id) } := by
    simp [killTasks, hid]
  have hpred : ∀ r ∈ db, jobMatchesFilter args nowIso r
      = ((r.done == none)
        && strGe r.cron nowIso
        && (match args.user with
            | some u => u == "" || r.user == u
            | none => true)
        && (match args.slash with
            | some s => s == "" || r.slash == s
            | none => true)
        && (match args.action with
            | some a => a == "" || r.action == some a
            | none => true)
        && (r.conversationAs == some args.conversationAs)
        && (match args.conversationWith with
            | some l => r.conversationWith == some l
            | none => true)) := by
    intro r _
    simp only [jobMatchesFilter]
    rw [show (args.conversationAs != "") = true by simpa using hca]
    cases args.user <;> cases args.slash <;> cases args.action <;>
      cases args.conversationWith
    all_goals try simp only [truthyCond]
    all_goals rfl
  have hself : ∀ r ∈ db.filter (jobMatchesFilter args nowIso),
      findById db r.id = some r := by
    intro r hr
    exact findById_of_nodup db r hnd (List.mem_filter.mp hr).1
  have hndsel : ((db.filter (jobMatchesFilter args nowIso)).map
      JobRecord.id).Nodup :=
    List.Nodup.sublist ((List.filter_sublist db).map JobRecord.id) hnd
  have hlivesel : ∀ r ∈ db.filter (jobMatchesFilter args nowIso),
      ∃ ct, registryFind reg (JobId.dbId r.id) = some ct := by
    intro r hr
    obtain ⟨hmem, hp⟩ := List.mem_filter.mp hr
    exact hlive r hmem hp
  have hproc := foldCancel_processed (db.filter (jobMatchesFilter args nowIso))
    db reg (message.getD defaultKillMessage) hndsel hlivesel hself
  refine ⟨?_, ?_, ?_⟩
  · rw [hkt]
    show (db.filter (jobMatchesFilter args nowIso)).map
        (fun r => JobId.dbId r.id) = _
    rw [List.filter_congr hpred]
  · intro r hmem hp
    have hrsel : r ∈ db.filter (jobMatchesFilter args nowIso) :=
      List.mem_filter.mpr ⟨hmem, hp⟩
    rw [hkt]
    exact hproc r hrsel
  · intro m hm
    rw [hkt]
    show findById (foldCancel (db.filter (jobMatchesFilter args nowIso)) db
        reg (message.getD defaultKillMessage)).1 m = findById db m
    refine foldCancel_db_other _ db reg _ m ?_
    intro r hr
    obtain ⟨hmem, hp⟩ := List.mem_filter.mp hr
    exact hm r hmem hp

/-- Witness for C8: a store with one matching pending job, one pending job
of another user and one already-completed job; only the first is
cancelled, the others stay untouched. -/
theorem killTasks_filter_spec_witness :
    (killTasks [demoJob, demoJob2, demoJob3]
        [(JobId.dbId 1, CronTime.instant 5)]
        { user := some "U12345678" } "2026-10-11T00:00:00.000Z"
        none).cancelled = [JobId.dbId 1]
    ∧ findById (killTasks [demoJob, demoJob2, demoJob3]
        [(JobId.dbId 1, CronTime.instant 5)]
        { user := some "U12345678" } "2026-10-11T00:00:00.000Z" none).db 1
      = some (failPatch "Killed by Aido command" demoJob)
    ∧ findById (killTasks [demoJob, demoJob2, demoJob3]
        [(JobId.dbId 1, CronTime.instant 5)]
        { user := some "U12345678" } "2026-10-11T00:00:00.000Z" none).db 2
      = some demoJob2 := by
  have h := killTasks_filter_spec [demoJob, demoJob2, demoJob3]
    [(JobId.dbId 1, CronTime.instant 5)]
    { user := some "U12345678" } "2026-10-11T00:00:00.000Z" none
    rfl (by decide) (by decide)
    (by
      intro r hr hp
      fin_cases hr
      · exact ⟨CronTime.instant 5, rfl⟩
      · exact absurd hp (by decide)
      · exact absurd hp (by decide))
  refine ⟨h.1.trans (by decide), ?_, ?_⟩
  · exact (h.2.1 demoJob (by decide) (by decide)).1
  · have h2 := h.2.2 2 (by decide)
    rw [h2]
    decide

end AidoCron
